import Mathlib

/-!
# Verification of the `file_organizer` utility (`src/app.py`)

A shallow embedding of the directory-organizing utility: `define_options`
(pre-flight path validation), `load_config` (JSON configuration loading) and
`file_organizer` (the classification-and-relocation engine), together with
theorems settling the specified properties.

Modelling conventions:
* The filesystem is abstracted to the list of immediate entries of the target
  directory, each with a name and an entry kind.
* The run is modelled as the trace of effects the Python code performs, in
  program order: `os.makedirs` calls, `shutil.move` calls, the
  `list(directory.iterdir())` snapshot, and each `print` statement (structured
  by which print site produced it, with its interpolated arguments).
* `os.makedirs(..., exist_ok=True)` and `shutil.move` are modelled as
  succeeding (platform-level failures such as permission errors are outside
  the model); the dynamic errors that are modelled are exactly the ones
  determined by the configuration *data*: `FileNotFoundError` and
  `JSONDecodeError` from `load_config`, and the `AttributeError` /
  `TypeError` that Python raises when the parsed JSON value does not have the
  mapping-of-sequences shape the engine expects.
-/

set_option autoImplicit false

namespace FileOrganizer

/-- Python `name.rfind('.')` on the character list of a file name: the index
of the last `'.'`, or `none` when the name contains no dot. -/
def lastDotIdx : List Char → Option Nat
  | [] => none
  | c :: cs =>
    match lastDotIdx cs with
    | some i => some (i + 1)
    | none => if c = '.' then some 0 else none

/-- `pathlib.Path.suffix` of a base name, as used at `content.suffix`
(src/app.py line 162): the substring from the last dot on, provided that dot
is neither the first nor the last character of the name; otherwise `""`.
So `"archive.tar.gz" ↦ ".gz"`, `"notes" ↦ ""`, `".bashrc" ↦ ""`, `"a." ↦ ""`. -/
def suffix (name : String) : String :=
  let cs := name.data
  match lastDotIdx cs with
  | some i => if 0 < i ∧ i < cs.length - 1 then String.mk (cs.drop i) else ""
  | none => ""

/-- `directory / name` (`pathlib`'s `/` operator, POSIX separator). -/
def joinPath (directory name : String) : String := directory ++ "/" ++ name

/-- The kind of a directory entry observed by `directory.iterdir()`. -/
inductive EntryKind
  /-- a regular file -/
  | file
  /-- a directory -/
  | dir
  /-- a symbolic link resolving to a regular file -/
  | symlinkToFile
  /-- a symbolic link resolving to a directory -/
  | symlinkToDir
  /-- a symbolic link whose target does not exist -/
  | brokenSymlink
  /-- a special file (socket, fifo, device, ...) -/
  | special
deriving DecidableEq

/-- `pathlib.Path.is_file()` (src/app.py line 157). It follows symbolic
links: it returns `True` for a regular file and also for a symlink that
resolves to a regular file, and `False` for everything else. -/
def EntryKind.is_file : EntryKind → Bool
  | .file => true
  | .symlinkToFile => true
  | _ => false

/-- One immediate entry of the target directory: its base name and kind. -/
structure Entry where
  name : String
  kind : EntryKind
deriving DecidableEq

/-- A JSON value, the result of `json.load` (src/app.py line 118). -/
inductive Json
  | null
  | bool (b : Bool)
  | num (n : Int)
  | str (s : String)
  | arr (elems : List Json)
  | obj (fields : List (String × Json))

/-- The Python exceptions the model tracks. -/
inductive PyError
  /-- `open(config_path)` on an absent file -/
  | fileNotFoundError
  /-- `json.load` on content that is not valid JSON -/
  | jsonDecodeError
  /-- `.items()` on a value that is not a dict -/
  | attributeError
  /-- `x in y` where `y` is not iterable and not a string -/
  | typeError
deriving DecidableEq

/-- The configuration source seen by `load_config`:
`none` = the file is absent; `some none` = the file exists but its content is
not valid JSON; `some (some j)` = the content parses to the JSON value `j`.
(The `open`/`json.load` mechanics are external collaborators; what the engine
receives is exactly this.) -/
abbrev ConfigSource := Option (Option Json)

/-- `load_config` (src/app.py lines 101-118): `open` + `json.load`, with no
validation of the shape of the parsed value.  Raises `FileNotFoundError` when
the file is absent and `JSONDecodeError` when the content is not valid JSON;
any successfully parsed JSON value is returned as-is. -/
def load_config : ConfigSource → Except PyError Json
  | none => .error .fileNotFoundError
  | some none => .error .jsonDecodeError
  | some (some j) => .ok j

/-- Python substring containment `needle in hay` for strings. -/
def strIn (needle : List Char) : List Char → Bool
  | [] => needle.isEmpty
  | c :: t => needle.isPrefixOf (c :: t) || strIn needle t

/-- Python `suf in elems` for a list `elems`: membership by `==`.  `suf` is a
string, and in Python a string compares equal only to an equal string, so
non-string elements never match. -/
def jsonStrMem (suf : String) : List Json → Bool
  | [] => false
  | .str s :: rest => s == suf || jsonStrMem suf rest
  | _ :: rest => jsonStrMem suf rest

/-- Whether `suf in j` is defined in Python (no `TypeError`): lists, strings
and dicts support `in`; `None`, booleans and numbers do not. -/
def isIterable : Json → Bool
  | .arr _ => true
  | .str _ => true
  | .obj _ => true
  | _ => false

/-- The value of Python `suf in exts` on the shapes that support `in`
(for non-iterable shapes the result is irrelevant; see `py_in`):
list membership by equality, substring test for strings, key membership for
dicts. -/
def pyInB (suf : String) : Json → Bool
  | .arr elems => jsonStrMem suf elems
  | .str s => strIn suf.data s.data
  | .obj fields => fields.any (fun f => f.1 == suf)
  | _ => false

/-- Python `suf in exts` (src/app.py line 162), including the `TypeError`
raised when `exts` is `None`, a boolean or a number. -/
def py_in (suf : String) (exts : Json) : Except PyError Bool :=
  if isIterable exts then .ok (pyInB suf exts) else .error .typeError

/-- The inner `for cat, exts in extension_groups.items()` loop with its
`break` (src/app.py lines 160-175): scan the categories in declaration order
and return the first whose extension set contains `suf`, or `none`;
propagates the `TypeError` from a malformed extension set. -/
def scanCategories (suf : String) : List (String × Json) → Except PyError (Option String)
  | [] => .ok none
  | (cat, exts) :: rest =>
    match py_in suf exts with
    | .error e => .error e
    | .ok b => if b then .ok (some cat) else scanCategories suf rest

/-- The error-free value of the category scan: the first category, in
declaration order, whose extension set contains `suf`. -/
def scanTotal (suf : String) : List (String × Json) → Option String
  | [] => none
  | (cat, exts) :: rest => if pyInB suf exts then some cat else scanTotal suf rest

/-- All extension sets of the configuration support the Python `in` operator,
so the category scan never raises. -/
def shapeOk (groups : List (String × Json)) : Bool :=
  groups.all (fun g => isIterable g.2)

/-- One line printed by the engine, structured by print site (src/app.py
lines 151, 166, 167, 173, 179, 182) with the interpolated arguments. -/
inductive Output
  /-- line 151: `[DRY RUN] Others folder will be created ...` -/
  | dryOthersBanner
  /-- line 166: `{cat} folder created` -/
  | catFolderCreated (cat : String)
  /-- line 167: `[DRY RUN] {content.name} will be moved into {target_dir}` -/
  | dryMove (name target : String)
  /-- line 173: `'{content.name}' is one of {cat} so it will move to {target_dir}` -/
  | movedMsg (name cat target : String)
  /-- line 179: `[DRY RUN] {content.name} will be moved into Others` -/
  | dryMoveOthers (name : String)
  /-- line 182: `'{content.name}' did not match any group so it will move to {others}` -/
  | othersMsg (name others : String)
deriving DecidableEq

/-- One step of the run's effect trace, in program order. -/
inductive Event
  /-- `os.makedirs(dir, exist_ok=True)` -/
  | makedirs (dir : String)
  /-- `shutil.move(str(src), str(destDir))` -/
  | moveFile (src destDir : String)
  /-- the `list(directory.iterdir())` snapshot being taken (line 155) -/
  | snapshot
  /-- a `print` statement -/
  | output (line : Output)
deriving DecidableEq

/-- The body of the per-file loop (src/app.py lines 156-182) for one regular
file named `name`: look up `extension_groups.items()` (an `AttributeError`
when the config value is not a dict), scan the categories, and emit this
file's events; on no match, fall through to the `Others` branch. -/
def processFile (directory : String) (dry_run : Bool) (extension_groups : Json)
    (name : String) : Except PyError (List Event) :=
  match extension_groups with
  | .obj groups =>
    match scanCategories (suffix name) groups with
    | .error e => .error e
    | .ok (some cat) =>
      let target_dir := joinPath directory cat
      if dry_run then
        .ok [.output (.catFolderCreated cat), .output (.dryMove name target_dir)]
      else
        .ok [.makedirs target_dir, .moveFile name target_dir,
             .output (.movedMsg name cat target_dir)]
    | .ok none =>
      if dry_run then
        .ok [.output (.dryMoveOthers name)]
      else
        let others := joinPath directory "Others"
        .ok [.moveFile name others, .output (.othersMsg name others)]
  | _ => .error .attributeError

/-- The events `processFile` emits when the configuration shape raises no
error (used to state and prove facts about error-free runs). -/
def okEvents (directory : String) (dry_run : Bool) (groups : List (String × Json))
    (name : String) : List Event :=
  match scanTotal (suffix name) groups with
  | some cat =>
    let target_dir := joinPath directory cat
    if dry_run then
      [.output (.catFolderCreated cat), .output (.dryMove name target_dir)]
    else
      [.makedirs target_dir, .moveFile name target_dir,
       .output (.movedMsg name cat target_dir)]
  | none =>
    if dry_run then
      [.output (.dryMoveOthers name)]
    else
      [.moveFile name (joinPath directory "Others"),
       .output (.othersMsg name (joinPath directory "Others"))]

/-- The `for content in list(directory.iterdir())` loop (src/app.py lines
155-182) over the snapshotted entries: skip non-files, process each file, and
stop with the raised exception when one occurs (events already emitted
stand). -/
def runFiles (directory : String) (dry_run : Bool) (extension_groups : Json) :
    List Entry → List Event × Option PyError
  | [] => ([], none)
  | content :: rest =>
    if content.kind.is_file then
      match processFile directory dry_run extension_groups content.name with
      | .error e => ([], some e)
      | .ok evs =>
        let r := runFiles directory dry_run extension_groups rest
        (evs ++ r.1, r.2)
    else runFiles directory dry_run extension_groups rest

/-- The entry list that `list(directory.iterdir())` observes, given the
initial top-level entries: in a non-dry run the `Others` directory has just
been created by line 149 (as `exist_ok=True`, only when no entry of that name
existed), so it appears in the snapshot; in a dry run the listing is the
initial state unchanged. -/
def snapshotOf (dry_run : Bool) (entries : List Entry) : List Entry :=
  if dry_run then entries
  else if entries.any (fun e => e.name == "Others") then entries
  else entries ++ [{ name := "Others", kind := EntryKind.dir }]

/-- `file_organizer` (src/app.py lines 120-182), as the trace of effects it
performs together with the exception that aborts it, if any:
load the config (its errors propagate before anything else happens), create
`Others` (non-dry) or print the dry-run banner (dry), snapshot the directory
listing, then run the per-file loop over the snapshot. -/
def file_organizer (directory : String) (dry_run : Bool) (config : ConfigSource)
    (entries : List Entry) : List Event × Option PyError :=
  match load_config config with
  | .error e => ([], some e)
  | .ok extension_groups =>
    let pre : List Event :=
      if dry_run then [.output .dryOthersBanner]
      else [.makedirs (joinPath directory "Others")]
    let r := runFiles directory dry_run extension_groups (snapshotOf dry_run entries)
    (pre ++ Event.snapshot :: r.1, r.2)

/-- The status of the path given as target: an existing directory, an
existing non-directory (e.g. a regular file), or an absent path. -/
inductive PathStatus
  | isDir
  | isFile
  | absent
deriving DecidableEq

/-- `path.exists()` as checked at src/app.py line 90. -/
def path_exists : PathStatus → Bool
  | .absent => false
  | _ => true

/-- The validation part of `define_options` (src/app.py lines 84-99): the
only check performed on the target path is `path.exists()`; on failure it
raises `SystemExit(1)` (modelled as `Except.error 1`), otherwise the path is
returned for the organizing pass.  No directory-ness check is made. -/
def define_options (path : PathStatus) : Except Nat PathStatus :=
  if path_exists path then .ok path else .error 1

/-- Events that mutate the filesystem: directory creation and file moves. -/
def Event.isMutation : Event → Bool
  | .makedirs _ => true
  | .moveFile _ _ => true
  | _ => false

/-- Events that move a file. -/
def Event.isMove : Event → Bool
  | .moveFile _ _ => true
  | _ => false

/-- Events that move the file named `f`. -/
def Event.isMoveOf (f : String) : Event → Bool
  | .moveFile src _ => src == f
  | _ => false

/-- Report lines that name the file `f` (the per-file lines of lines 167,
173, 179, 182; the banner and the `folder created` line name no file). -/
def Output.names (f : String) : Output → Bool
  | .dryMove n _ => n == f
  | .movedMsg n _ _ => n == f
  | .dryMoveOthers n => n == f
  | .othersMsg n _ => n == f
  | _ => false

/-- Events that are a report line naming the file `f`. -/
def Event.reportsOn (f : String) : Event → Bool
  | .output o => o.names f
  | _ => false

/-- Events that report a classification of some file (every print site except
the dry-run banner). -/
def Event.isClassificationReport : Event → Bool
  | .output .dryOthersBanner => false
  | .output _ => true
  | _ => false

/-- The snapshot marker. -/
def Event.isSnapshotEv : Event → Bool
  | .snapshot => true
  | _ => false

/-- The classification decision an event embodies, as
`(file name, destination directory)`: a real move records its destination, a
dry-run report records the destination it announces (line 179 announces the
catch-all, whose resolved path is `directory/Others`). -/
def Event.decision (directory : String) : Event → Option (String × String)
  | .moveFile src destDir => some (src, destDir)
  | .output (.dryMove n target) => some (n, target)
  | .output (.dryMoveOthers n) => some (n, joinPath directory "Others")
  | _ => none

/-- The source of the move recorded by an event, when it is a move. -/
def Event.moveSrc : Event → Option String
  | .moveFile src _ => some src
  | _ => none

/-! ## Helper lemmas -/

theorem py_in_ok {suf : String} {exts : Json} (h : isIterable exts = true) :
    py_in suf exts = .ok (pyInB suf exts) := by
  simp [py_in, h]

theorem scan_ok {suf : String} {groups : List (String × Json)}
    (h : shapeOk groups = true) :
    scanCategories suf groups = .ok (scanTotal suf groups) := by
  induction groups with
  | nil => rfl
  | cons g rest ih =>
    obtain ⟨cat, exts⟩ := g
    rw [shapeOk, List.all_cons, Bool.and_eq_true] at h
    rw [scanCategories, py_in_ok h.1, scanTotal]
    by_cases hb : pyInB suf exts <;> simp [hb, ih h.2]

theorem processFile_ok {d : String} {dry : Bool} {groups : List (String × Json)}
    {nm : String} (h : shapeOk groups = true) :
    processFile d dry (.obj groups) nm = .ok (okEvents d dry groups nm) := by
  rw [processFile, scan_ok h, okEvents]
  cases scanTotal (suffix nm) groups <;> cases dry <;> rfl

theorem runFiles_filter (d : String) (dry : Bool) (j : Json) (es : List Entry) :
    runFiles d dry j es = runFiles d dry j (es.filter (fun e => e.kind.is_file)) := by
  induction es with
  | nil => rfl
  | cons content rest ih =>
    by_cases hf : content.kind.is_file = true
    · simp only [List.filter_cons, hf, if_true, runFiles, if_pos hf]
      cases processFile d dry j content.name with
      | error e => rfl
      | ok evs => simp only [ih]
    · simp only [List.filter_cons, hf, if_false, Bool.false_eq_true, runFiles, if_neg hf]
      exact ih

theorem snapshot_filter (b : Bool) (es : List Entry) :
    (snapshotOf b es).filter (fun e => e.kind.is_file)
      = es.filter (fun e => e.kind.is_file) := by
  rw [snapshotOf]
  by_cases hb : b = true
  · simp [hb]
  · by_cases ha : es.any (fun e => e.name == "Others") = true <;>
      simp [hb, ha, List.filter_append, EntryKind.is_file]

theorem runFiles_congr {d : String} {dry : Bool} {j : Json} {es₁ es₂ : List Entry}
    (h : es₁.filter (fun e => e.kind.is_file) = es₂.filter (fun e => e.kind.is_file)) :
    runFiles d dry j es₁ = runFiles d dry j es₂ := by
  rw [runFiles_filter d dry j es₁, runFiles_filter d dry j es₂, h]

theorem runFiles_err_ok {d : String} {dry : Bool} {groups : List (String × Json)}
    (h : shapeOk groups = true) (es : List Entry) :
    (runFiles d dry (.obj groups) es).2 = none := by
  induction es with
  | nil => rfl
  | cons content rest ih =>
    rw [runFiles]
    by_cases hf : content.kind.is_file = true
    · rw [if_pos hf, processFile_ok h]
      exact ih
    · rw [if_neg hf]; exact ih

theorem okEvents_moveOf_count (d : String) (groups : List (String × Json)) (nm n : String) :
    (okEvents d false groups nm).countP (Event.isMoveOf n) = if nm == n then 1 else 0 := by
  rw [okEvents]
  cases scanTotal (suffix nm) groups <;>
    by_cases h : (nm == n) = true <;>
      simp [List.countP_cons, Event.isMoveOf, h]

theorem okEvents_reportsOn_count (d : String) (dry : Bool) (groups : List (String × Json))
    (nm n : String) :
    (okEvents d dry groups nm).countP (Event.reportsOn n) = if nm == n then 1 else 0 := by
  rw [okEvents]
  cases scanTotal (suffix nm) groups <;> cases dry <;>
    by_cases h : (nm == n) = true <;>
      simp [List.countP_cons, Event.reportsOn, Output.names, h]

theorem runFiles_moveOf_count {d : String} {groups : List (String × Json)}
    (h : shapeOk groups = true) (n : String) (es : List Entry) :
    (runFiles d false (.obj groups) es).1.countP (Event.isMoveOf n)
      = es.countP (fun e => e.kind.is_file && e.name == n) := by
  induction es with
  | nil => rfl
  | cons content rest ih =>
    rw [runFiles, List.countP_cons]
    by_cases hf : content.kind.is_file = true
    · rw [if_pos hf, processFile_ok h]
      rw [List.countP_append, okEvents_moveOf_count, ih]
      by_cases hn : (content.name == n) = true <;> simp [hn, hf] <;> omega
    · rw [if_neg hf, ih]
      simp [hf]

theorem runFiles_reportsOn_count {d : String} {groups : List (String × Json)}
    (h : shapeOk groups = true) (dry : Bool) (n : String) (es : List Entry) :
    (runFiles d dry (.obj groups) es).1.countP (Event.reportsOn n)
      = es.countP (fun e => e.kind.is_file && e.name == n) := by
  induction es with
  | nil => rfl
  | cons content rest ih =>
    rw [runFiles, List.countP_cons]
    by_cases hf : content.kind.is_file = true
    · rw [if_pos hf, processFile_ok h]
      rw [List.countP_append, okEvents_reportsOn_count, ih]
      by_cases hn : (content.name == n) = true <;> simp [hn, hf] <;> omega
    · rw [if_neg hf, ih]
      simp [hf]

theorem runFiles_move_mem {d : String} {groups : List (String × Json)}
    (h : shapeOk groups = true) {es : List Entry} {e : Entry}
    (he : e ∈ es) (hf : e.kind.is_file = true) :
    Event.moveFile e.name (joinPath d ((scanTotal (suffix e.name) groups).getD "Others"))
      ∈ (runFiles d false (.obj groups) es).1 := by
  induction es with
  | nil => cases he
  | cons content rest ih =>
    rw [runFiles]
    rcases List.mem_cons.mp he with rfl | hmem
    · rw [if_pos hf, processFile_ok h]
      apply List.mem_append_left
      rw [okEvents]
      cases hs : scanTotal (suffix e.name) groups <;> simp [hs]
    · by_cases hcf : content.kind.is_file = true
      · rw [if_pos hcf, processFile_ok h]
        exact List.mem_append_right _ (ih hmem)
      · rw [if_neg hcf]; exact ih hmem

theorem processFile_moveSrc {d : String} {dry : Bool} {j : Json} {nm : String}
    {evs : List Event} (h : processFile d dry j nm = .ok evs) :
    evs.filterMap Event.moveSrc = [] ∨ evs.filterMap Event.moveSrc = [nm] := by
  cases j with
  | obj groups =>
    simp only [processFile] at h
    cases hs : scanCategories (suffix nm) groups with
    | error e => rw [hs] at h; exact Except.noConfusion h
    | ok oc =>
      rw [hs] at h
      cases oc with
      | some cat =>
        cases dry <;>
          simp only [ite_true, ite_false, Bool.false_eq_true, Except.ok.injEq] at h <;>
          subst h <;> simp [Event.moveSrc, List.filterMap_cons]
      | none =>
        cases dry <;>
          simp only [ite_true, ite_false, Bool.false_eq_true, Except.ok.injEq] at h <;>
          subst h <;> simp [Event.moveSrc, List.filterMap_cons]
  | null => simp [processFile] at h
  | bool b => simp [processFile] at h
  | num k => simp [processFile] at h
  | str s => simp [processFile] at h
  | arr l => simp [processFile] at h

theorem runFiles_moveSrc_sublist (d : String) (dry : Bool) (j : Json) (es : List Entry) :
    ((runFiles d dry j es).1.filterMap Event.moveSrc).Sublist (es.map Entry.name) := by
  induction es with
  | nil => exact List.nil_sublist _
  | cons content rest ih =>
    rw [runFiles, List.map_cons]
    by_cases hf : content.kind.is_file = true
    · rw [if_pos hf]
      cases hp : processFile d dry j content.name with
      | error e => exact List.nil_sublist _
      | ok evs =>
        simp only [List.filterMap_append]
        rcases processFile_moveSrc hp with h0 | h1
        · rw [h0, List.nil_append]
          exact ih.cons _
        · rw [h1, List.singleton_append]
          exact ih.cons₂ _
    · rw [if_neg hf]
      exact ih.cons _

theorem processFile_dry_noMut {d : String} {j : Json} {nm : String} {evs : List Event}
    (h : processFile d true j nm = .ok evs) :
    evs.countP Event.isMutation = 0 := by
  cases j with
  | obj groups =>
    simp only [processFile] at h
    cases hs : scanCategories (suffix nm) groups with
    | error e => rw [hs] at h; exact Except.noConfusion h
    | ok oc =>
      rw [hs] at h
      cases oc with
      | some cat =>
        simp only [ite_true, Except.ok.injEq] at h
        subst h
        simp [List.countP_cons, Event.isMutation]
      | none =>
        simp only [ite_true, Except.ok.injEq] at h
        subst h
        simp [List.countP_cons, Event.isMutation]
  | null => simp [processFile] at h
  | bool b => simp [processFile] at h
  | num k => simp [processFile] at h
  | str s => simp [processFile] at h
  | arr l => simp [processFile] at h

theorem runFiles_dry_noMut (d : String) (j : Json) (es : List Entry) :
    (runFiles d true j es).1.countP Event.isMutation = 0 := by
  induction es with
  | nil => rfl
  | cons content rest ih =>
    rw [runFiles]
    by_cases hf : content.kind.is_file = true
    · rw [if_pos hf]
      cases hp : processFile d true j content.name with
      | error e => rfl
      | ok evs => simp only [List.countP_append, processFile_dry_noMut hp, ih]
    · rw [if_neg hf]; exact ih

theorem processFile_decision_pair (d : String) (j : Json) (nm : String) :
    (∃ e, processFile d true j nm = .error e ∧ processFile d false j nm = .error e) ∨
    (∃ evs₁ evs₂, processFile d true j nm = .ok evs₁ ∧ processFile d false j nm = .ok evs₂ ∧
      evs₁.filterMap (Event.decision d) = evs₂.filterMap (Event.decision d)) := by
  cases j with
  | obj groups =>
    cases hs : scanCategories (suffix nm) groups with
    | error e =>
      refine .inl ⟨e, ?_, ?_⟩ <;> simp [processFile, hs]
    | ok oc =>
      cases oc with
      | some cat =>
        refine .inr ⟨[.output (.catFolderCreated cat),
            .output (.dryMove nm (joinPath d cat))],
          [.makedirs (joinPath d cat), .moveFile nm (joinPath d cat),
            .output (.movedMsg nm cat (joinPath d cat))], ?_, ?_, ?_⟩
        · simp [processFile, hs]
        · simp [processFile, hs]
        · simp [Event.decision, List.filterMap_cons]
      | none =>
        refine .inr ⟨[.output (.dryMoveOthers nm)],
          [.moveFile nm (joinPath d "Others"),
            .output (.othersMsg nm (joinPath d "Others"))], ?_, ?_, ?_⟩
        · simp [processFile, hs]
        · simp [processFile, hs]
        · simp [Event.decision, List.filterMap_cons]
  | null => exact .inl ⟨.attributeError, rfl, rfl⟩
  | bool b => exact .inl ⟨.attributeError, rfl, rfl⟩
  | num k => exact .inl ⟨.attributeError, rfl, rfl⟩
  | str s => exact .inl ⟨.attributeError, rfl, rfl⟩
  | arr l => exact .inl ⟨.attributeError, rfl, rfl⟩

theorem runFiles_decisions (d : String) (j : Json) (es : List Entry) :
    (runFiles d true j es).1.filterMap (Event.decision d)
      = (runFiles d false j es).1.filterMap (Event.decision d) ∧
    (runFiles d true j es).2 = (runFiles d false j es).2 := by
  induction es with
  | nil => exact ⟨rfl, rfl⟩
  | cons content rest ih =>
    by_cases hf : content.kind.is_file = true
    · rcases processFile_decision_pair d j content.name with
        ⟨e, h₁, h₂⟩ | ⟨evs₁, evs₂, h₁, h₂, hd⟩
      · simp only [runFiles, if_pos hf, h₁, h₂]
        constructor <;> trivial
      · simp only [runFiles, if_pos hf, h₁, h₂, List.filterMap_append, hd, ih.1, ih.2]
        constructor <;> trivial
    · simp only [runFiles, if_neg hf]
      exact ih

theorem scanTotal_some_of_any {suf : String} {groups : List (String × Json)}
    (h : groups.any (fun g => pyInB suf g.2) = true) :
    ∃ cat, scanTotal suf groups = some cat := by
  induction groups with
  | nil => cases h
  | cons g rest ih =>
    rw [List.any_cons, Bool.or_eq_true] at h
    obtain ⟨cat, exts⟩ := g
    rw [scanTotal]
    rcases h with h | h
    · exact ⟨cat, by simp only at h; simp [h]⟩
    · by_cases hb : pyInB suf exts = true
      · exact ⟨cat, by simp [hb]⟩
      · simpa [hb] using ih h

theorem scanTotal_none_of_all {suf : String} {groups : List (String × Json)}
    (h : groups.all (fun g => !pyInB suf g.2) = true) :
    scanTotal suf groups = none := by
  induction groups with
  | nil => rfl
  | cons g rest ih =>
    rw [List.all_cons, Bool.and_eq_true] at h
    obtain ⟨cat, exts⟩ := g
    rw [scanTotal]
    have hb : pyInB suf exts = false := by simpa using h.1
    simp [hb, ih h.2]

theorem snapshotOf_mem {e : Entry} {es : List Entry} (h : e ∈ es) (b : Bool) :
    e ∈ snapshotOf b es := by
  rw [snapshotOf]
  by_cases hb : b = true
  · simpa [hb] using h
  · by_cases ha : es.any (fun x => x.name == "Others") = true <;>
      simp [hb, ha, List.mem_append, h]

theorem snapshot_countP_file (b : Bool) (es : List Entry) (n : String) :
    (snapshotOf b es).countP (fun e => e.kind.is_file && e.name == n)
      = es.countP (fun e => e.kind.is_file && e.name == n) := by
  rw [snapshotOf]
  by_cases hb : b = true
  · simp [hb]
  · by_cases ha : es.any (fun x => x.name == "Others") = true <;>
      simp [hb, ha, List.countP_append, List.countP_cons, EntryKind.is_file]

theorem snapshotOf_name_nodup {es : List Entry} (h : (es.map Entry.name).Nodup) (b : Bool) :
    ((snapshotOf b es).map Entry.name).Nodup := by
  rw [snapshotOf]
  by_cases hb : b = true
  · simpa [hb] using h
  · by_cases ha : es.any (fun x => x.name == "Others") = true
    · simpa [hb, ha] using h
    · have hno : "Others" ∉ es.map Entry.name := by
        intro hmem
        obtain ⟨x, hx, hxn⟩ := List.mem_map.mp hmem
        exact ha (List.any_eq_true.mpr ⟨x, hx, by simp [hxn]⟩)
      simp only [if_neg hb, if_neg ha, List.map_append, List.map_cons, List.map_nil]
      rw [List.nodup_append]
      refine ⟨h, List.nodup_singleton _, ?_⟩
      intro a ha1 ha2
      simp only [List.mem_singleton] at ha2
      subst ha2
      exact hno ha1

theorem countP_name_eq_count (es : List Entry) (n : String) :
    es.countP (fun e => e.name == n) = (es.map Entry.name).count n := by
  induction es with
  | nil => rfl
  | cons e rest ih =>
    simp only [List.countP_cons, List.map_cons, List.count_cons, ih]

theorem file_organizer_ok (d : String) (dry : Bool) (j : Json) (entries : List Entry) :
    file_organizer d dry (some (some j)) entries
      = ((if dry then [Event.output .dryOthersBanner]
          else [Event.makedirs (joinPath d "Others")])
          ++ Event.snapshot :: (runFiles d dry j (snapshotOf dry entries)).1,
         (runFiles d dry j (snapshotOf dry entries)).2) := rfl

theorem file_organizer_ok_dry (d : String) (j : Json) (entries : List Entry) :
    file_organizer d true (some (some j)) entries
      = ([Event.output .dryOthersBanner]
          ++ Event.snapshot :: (runFiles d true j (snapshotOf true entries)).1,
         (runFiles d true j (snapshotOf true entries)).2) := rfl

theorem file_organizer_ok_real (d : String) (j : Json) (entries : List Entry) :
    file_organizer d false (some (some j)) entries
      = ([Event.makedirs (joinPath d "Others")]
          ++ Event.snapshot :: (runFiles d false j (snapshotOf false entries)).1,
         (runFiles d false j (snapshotOf false entries)).2) := rfl

theorem trace_countP_nondry (d : String) (p : Event → Bool) (r : List Event)
    (hp1 : p (Event.makedirs (joinPath d "Others")) = false)
    (hp2 : p Event.snapshot = false) :
    ([Event.makedirs (joinPath d "Others")] ++ Event.snapshot :: r).countP p
      = r.countP p := by
  simp [List.countP_append, List.countP_cons, hp1, hp2]

theorem trace_countP_dry (p : Event → Bool) (r : List Event)
    (hp1 : p (Event.output .dryOthersBanner) = false)
    (hp2 : p Event.snapshot = false) :
    ([Event.output .dryOthersBanner] ++ Event.snapshot :: r).countP p
      = r.countP p := by
  simp [List.countP_append, List.countP_cons, hp1, hp2]

theorem entries_countP_file_name {entries : List Entry} {e : Entry}
    (hnodup : (entries.map Entry.name).Nodup)
    (he : e ∈ entries) (hfile : e.kind.is_file = true) :
    entries.countP (fun x => x.kind.is_file && x.name == e.name) = 1 := by
  apply Nat.le_antisymm
  · calc entries.countP (fun x => x.kind.is_file && x.name == e.name)
        ≤ entries.countP (fun x => x.name == e.name) :=
          List.countP_mono_left (fun x _ hx => by
            rw [Bool.and_eq_true] at hx; exact hx.2)
    _ = (entries.map Entry.name).count e.name := countP_name_eq_count entries e.name
    _ ≤ 1 := List.nodup_iff_count_le_one.mp hnodup e.name
  · have hpos : 0 < entries.countP (fun x => x.kind.is_file && x.name == e.name) :=
      List.countP_pos_iff.mpr ⟨e, he, by simp [hfile]⟩
    omega

/-! ## The claims -/

/-- C1: for every regular file in the target directory whose extension is a
member of at least one category's extension set, the organizer moves the file
into the subdirectory of the first such category in the Category Index's
declaration order (`scanTotal` is exactly "first match in declaration
order"), moves it exactly once, and emits exactly one report line naming the
file; the run raises no error. -/
theorem C1_first_match_single_move (d : String) (groups : List (String × Json))
    (entries : List Entry) (e : Entry)
    (hshape : shapeOk groups = true)
    (hnodup : (entries.map Entry.name).Nodup)
    (he : e ∈ entries) (hfile : e.kind.is_file = true)
    (hmatch : groups.any (fun g => pyInB (suffix e.name) g.2) = true) :
    ∃ cat, scanTotal (suffix e.name) groups = some cat ∧
      Event.moveFile e.name (joinPath d cat)
        ∈ (file_organizer d false (some (some (Json.obj groups))) entries).1 ∧
      (file_organizer d false (some (some (Json.obj groups))) entries).1.countP
        (Event.isMoveOf e.name) = 1 ∧
      (file_organizer d false (some (some (Json.obj groups))) entries).1.countP
        (Event.reportsOn e.name) = 1 ∧
      (file_organizer d false (some (some (Json.obj groups))) entries).2 = none := by
  obtain ⟨cat, hcat⟩ := scanTotal_some_of_any hmatch
  have hcount := entries_countP_file_name hnodup he hfile
  refine ⟨cat, hcat, ?_, ?_, ?_, ?_⟩
  · rw [file_organizer_ok_real]
    have hm := runFiles_move_mem (d := d) hshape (snapshotOf_mem he false) hfile
    rw [hcat] at hm
    simp only [Option.getD_some] at hm
    exact List.mem_append_right _ (List.mem_cons_of_mem _ hm)
  · rw [file_organizer_ok_real]
    rw [trace_countP_nondry d _ _ rfl rfl, runFiles_moveOf_count hshape,
      snapshot_countP_file, hcount]
  · rw [file_organizer_ok_real]
    rw [trace_countP_nondry d _ _ rfl rfl, runFiles_reportsOn_count hshape,
      snapshot_countP_file, hcount]
  · rw [file_organizer_ok_real]
    exact runFiles_err_ok hshape _

/-- Witness for C1 at a concrete input: the spec's `report.pdf` with
`.pdf ↦ Documents`. -/
theorem C1_first_match_single_move_w :
    ∃ cat, scanTotal (suffix "report.pdf") [("Documents", Json.arr [Json.str ".pdf"])]
        = some cat ∧
      Event.moveFile "report.pdf" (joinPath "/d" cat)
        ∈ (file_organizer "/d" false
            (some (some (Json.obj [("Documents", Json.arr [Json.str ".pdf"])])))
            [⟨"report.pdf", EntryKind.file⟩]).1 ∧
      (file_organizer "/d" false
          (some (some (Json.obj [("Documents", Json.arr [Json.str ".pdf"])])))
          [⟨"report.pdf", EntryKind.file⟩]).1.countP
        (Event.isMoveOf "report.pdf") = 1 ∧
      (file_organizer "/d" false
          (some (some (Json.obj [("Documents", Json.arr [Json.str ".pdf"])])))
          [⟨"report.pdf", EntryKind.file⟩]).1.countP
        (Event.reportsOn "report.pdf") = 1 ∧
      (file_organizer "/d" false
          (some (some (Json.obj [("Documents", Json.arr [Json.str ".pdf"])])))
          [⟨"report.pdf", EntryKind.file⟩]).2 = none :=
  C1_first_match_single_move "/d" [("Documents", Json.arr [Json.str ".pdf"])]
    [⟨"report.pdf", EntryKind.file⟩] ⟨"report.pdf", EntryKind.file⟩
    (by decide) (by decide) (by decide) rfl (by decide)

/-- C2: a regular file whose extension (the empty suffix of an
extension-less file being just another extension value) is a member of no
category's set is moved, exactly once, into the catch-all `Others`
subdirectory. -/
theorem C2_unmatched_to_others (d : String) (groups : List (String × Json))
    (entries : List Entry) (e : Entry)
    (hshape : shapeOk groups = true)
    (hnodup : (entries.map Entry.name).Nodup)
    (he : e ∈ entries) (hfile : e.kind.is_file = true)
    (hnomatch : groups.all (fun g => !pyInB (suffix e.name) g.2) = true) :
    Event.moveFile e.name (joinPath d "Others")
      ∈ (file_organizer d false (some (some (Json.obj groups))) entries).1 ∧
    (file_organizer d false (some (some (Json.obj groups))) entries).1.countP
      (Event.isMoveOf e.name) = 1 ∧
    (file_organizer d false (some (some (Json.obj groups))) entries).2 = none := by
  have hnone := scanTotal_none_of_all hnomatch
  have hcount := entries_countP_file_name hnodup he hfile
  refine ⟨?_, ?_, ?_⟩
  · rw [file_organizer_ok_real]
    have hm := runFiles_move_mem (d := d) hshape (snapshotOf_mem he false) hfile
    rw [hnone] at hm
    simp only [Option.getD_none] at hm
    exact List.mem_append_right _ (List.mem_cons_of_mem _ hm)
  · rw [file_organizer_ok_real]
    rw [trace_countP_nondry d _ _ rfl rfl, runFiles_moveOf_count hshape,
      snapshot_countP_file, hcount]
  · rw [file_organizer_ok_real]
    exact runFiles_err_ok hshape _

/-- Witness for C2 at a concrete input: the spec's extension-less `notes`
file falls through to `Others`. -/
theorem C2_unmatched_to_others_w :
    Event.moveFile "notes" (joinPath "/d" "Others")
      ∈ (file_organizer "/d" false
          (some (some (Json.obj [("Documents", Json.arr [Json.str ".pdf"])])))
          [⟨"notes", EntryKind.file⟩]).1 ∧
    (file_organizer "/d" false
        (some (some (Json.obj [("Documents", Json.arr [Json.str ".pdf"])])))
        [⟨"notes", EntryKind.file⟩]).1.countP (Event.isMoveOf "notes") = 1 ∧
    (file_organizer "/d" false
        (some (some (Json.obj [("Documents", Json.arr [Json.str ".pdf"])])))
        [⟨"notes", EntryKind.file⟩]).2 = none :=
  C2_unmatched_to_others "/d" [("Documents", Json.arr [Json.str ".pdf"])]
    [⟨"notes", EntryKind.file⟩] ⟨"notes", EntryKind.file⟩
    (by decide) (by decide) (by decide) rfl (by decide)

/-- C3: for the same initial directory state and configuration, a dry run
and a non-dry run make identical classification decisions — each file is
assigned the same destination — and fail identically; only the effect
(reporting versus creating-and-moving) differs. -/
theorem C3_dry_run_same_decisions (d : String) (config : ConfigSource)
    (entries : List Entry) :
    (file_organizer d true config entries).1.filterMap (Event.decision d)
      = (file_organizer d false config entries).1.filterMap (Event.decision d) ∧
    (file_organizer d true config entries).2
      = (file_organizer d false config entries).2 := by
  match config with
  | none => exact ⟨rfl, rfl⟩
  | some none => exact ⟨rfl, rfl⟩
  | some (some j) =>
    rw [file_organizer_ok_dry, file_organizer_ok_real]
    have hsnap : runFiles d false j (snapshotOf false entries)
        = runFiles d false j entries := by
      apply runFiles_congr
      rw [snapshot_filter]
    have hsnapt : snapshotOf true entries = entries := by simp [snapshotOf]
    rw [hsnapt, hsnap]
    obtain ⟨h1, h2⟩ := runFiles_decisions d j entries
    constructor
    · simp [List.filterMap_append, List.filterMap_cons, Event.decision, h1]
    · simpa using h2

/-- C4: with `dry_run = true` the organizer performs zero filesystem
mutation — no `os.makedirs` and no `shutil.move` appears in the trace — for
every configuration source (including every malformed one, whatever error it
later causes) and every directory state. -/
theorem C4_dry_run_zero_mutation (d : String) (config : ConfigSource)
    (entries : List Entry) :
    (file_organizer d true config entries).1.countP Event.isMutation = 0 := by
  match config with
  | none => rfl
  | some none => rfl
  | some (some j) =>
    rw [file_organizer_ok_dry]
    rw [trace_countP_dry _ _ rfl rfl]
    exact runFiles_dry_noMut d j (snapshotOf true entries)

/-- C5 counterexample: a configuration whose content is valid JSON but not of
the mapping-of-sequences shape (`"B" ↦ 5`) is *not* rejected at load time with
a ConfigMalformed-kind error: the run first moves `doc.pdf` into `A` and only
then aborts with a `TypeError` while classifying `x.txt`, so the failure is
neither fatal-at-load nor surfaced before any file is touched. -/
theorem C5_counterexample :
    (file_organizer "/d" false
        (some (some (Json.obj [("A", Json.arr [Json.str ".pdf"]), ("B", Json.num 5)])))
        [⟨"doc.pdf", EntryKind.file⟩, ⟨"x.txt", EntryKind.file⟩]).2
      = some PyError.typeError ∧
    Event.moveFile "doc.pdf" (joinPath "/d" "A")
      ∈ (file_organizer "/d" false
          (some (some (Json.obj [("A", Json.arr [Json.str ".pdf"]), ("B", Json.num 5)])))
          [⟨"doc.pdf", EntryKind.file⟩, ⟨"x.txt", EntryKind.file⟩]).1 := by
  constructor
  · rfl
  · decide

/-- C5 amended: an absent configuration source fails with `FileNotFoundError`
(the ConfigNotFound kind) and content that is not valid JSON fails with
`JSONDecodeError` (the ConfigMalformed kind); both are fatal and raised
before any filesystem event — the trace is empty.  Valid JSON of the wrong
mapping-of-sequences shape, however, is accepted at load time; the shape
violation surfaces only during the organizing pass (as an `AttributeError`
or `TypeError`), by which point files may already have been moved. -/
theorem C5_load_failures_before_any_event (d : String) (dry : Bool)
    (entries : List Entry) :
    file_organizer d dry none entries = ([], some PyError.fileNotFoundError) ∧
    file_organizer d dry (some none) entries = ([], some PyError.jsonDecodeError) :=
  ⟨rfl, rfl⟩

/-- C6 counterexample: a target path that exists but is a regular file — an
invalid target directory — passes the pre-flight validation instead of being
a fatal pre-flight error. -/
theorem C6_counterexample :
    define_options PathStatus.isFile = Except.ok PathStatus.isFile ∧
    PathStatus.isFile ≠ PathStatus.isDir :=
  ⟨rfl, by decide⟩

/-- C6 amended: a *non-existent* target path is a fatal, immediate pre-flight
error with exit status 1 (raised in `define_options`, before any organizing
and with no filesystem side effects — the function only checks
`path.exists()`); an existing path passes the pre-flight check even when it
is not a directory. -/
theorem C6_absent_target_preflight_error :
    define_options PathStatus.absent = Except.error 1 ∧
    define_options PathStatus.isDir = Except.ok PathStatus.isDir ∧
    define_options PathStatus.isFile = Except.ok PathStatus.isFile :=
  ⟨rfl, rfl, rfl⟩

/-- C7 counterexample: a symbolic link resolving to a regular file is a
directory entry that is not a regular file, yet the organizer does not skip
it: `Path.is_file()` follows symlinks, so the link is classified and moved. -/
theorem C7_counterexample :
    Event.moveFile "link.pdf" (joinPath "/d" "A")
      ∈ (file_organizer "/d" false
          (some (some (Json.obj [("A", Json.arr [Json.str ".pdf"])])))
          [⟨"link.pdf", EntryKind.symlinkToFile⟩]).1 ∧
    EntryKind.symlinkToFile ≠ EntryKind.file := by
  constructor
  · decide
  · decide

/-- C7 amended: every directory entry for which `Path.is_file()` is false —
directories, symlinks to directories, broken symlinks, special files — is
skipped and left unchanged, in both dry-run and non-dry-run modes: deleting
such an entry from the listing leaves the run's entire outcome unchanged.
(Symlinks that resolve to regular files are treated as files instead.) -/
theorem C7_is_file_false_skipped (d : String) (dry : Bool) (config : ConfigSource)
    (xs ys : List Entry) (e : Entry) (h : e.kind.is_file = false) :
    file_organizer d dry config (xs ++ e :: ys)
      = file_organizer d dry config (xs ++ ys) := by
  match config with
  | none => rfl
  | some none => rfl
  | some (some j) =>
    rw [file_organizer_ok, file_organizer_ok]
    have hr : runFiles d dry j (snapshotOf dry (xs ++ e :: ys))
        = runFiles d dry j (snapshotOf dry (xs ++ ys)) := by
      apply runFiles_congr
      rw [snapshot_filter, snapshot_filter, List.filter_append, List.filter_append,
        List.filter_cons]
      simp [h]
    rw [hr]

/-- Witness for C7's amended theorem at a concrete input: removing a
directory entry does not change the run. -/
theorem C7_is_file_false_skipped_w :
    (Entry.mk "sub" EntryKind.dir).kind.is_file = false ∧
    file_organizer "/d" false (some (some (Json.obj [])))
        ([] ++ Entry.mk "sub" EntryKind.dir :: [⟨"a.txt", EntryKind.file⟩])
      = file_organizer "/d" false (some (some (Json.obj [])))
        ([] ++ [⟨"a.txt", EntryKind.file⟩]) :=
  ⟨rfl, C7_is_file_false_skipped "/d" false (some (some (Json.obj []))) []
    [⟨"a.txt", EntryKind.file⟩] (Entry.mk "sub" EntryKind.dir) rfl⟩

/-- C8 counterexample: in a non-dry run the `Others` directory creation — a
filesystem mutation — happens *before* the `list(directory.iterdir())`
snapshot is taken, so the entries are not snapshotted before any mutation
begins. -/
theorem C8_counterexample :
    (file_organizer "/d" false (some (some (Json.obj []))) []).1
      = [Event.makedirs (joinPath "/d" "Others"), Event.snapshot] ∧
    Event.isMutation (Event.makedirs (joinPath "/d" "Others")) = true :=
  ⟨rfl, rfl⟩

/-- C8 amended: the snapshot is taken before any file relocation (no move
event precedes the snapshot event in the trace — only the unconditional
`Others` creation does), and the organizer iterates only that fixed
snapshot, so relocations never feed back into the iteration: no file is
moved twice in one run (the moved names are pairwise distinct). -/
theorem C8_moves_after_snapshot_each_file_once (d : String) (dry : Bool)
    (config : ConfigSource) (entries : List Entry)
    (hnodup : (entries.map Entry.name).Nodup) :
    ((file_organizer d dry config entries).1.takeWhile
        (fun ev => !Event.isSnapshotEv ev)).countP Event.isMove = 0 ∧
    ((file_organizer d dry config entries).1.filterMap Event.moveSrc).Nodup := by
  match config with
  | none => exact ⟨rfl, List.nodup_nil⟩
  | some none => exact ⟨rfl, List.nodup_nil⟩
  | some (some j) =>
    have hsub := runFiles_moveSrc_sublist d dry j (snapshotOf dry entries)
    have hnd := snapshotOf_name_nodup hnodup dry
    cases dry
    case false =>
      rw [file_organizer_ok_real]
      constructor
      · simp [List.takeWhile_cons, Event.isSnapshotEv, List.countP_cons, Event.isMove]
      · simp only [List.filterMap_append, List.filterMap_cons, Event.moveSrc,
          List.filterMap_nil, List.nil_append]
        exact hsub.nodup hnd
    case true =>
      rw [file_organizer_ok_dry]
      constructor
      · simp [List.takeWhile_cons, Event.isSnapshotEv, List.countP_cons, Event.isMove]
      · simp only [List.filterMap_append, List.filterMap_cons, Event.moveSrc,
          List.filterMap_nil, List.nil_append]
        exact hsub.nodup hnd

/-- Witness for C8's amended theorem at a concrete input. -/
theorem C8_moves_after_snapshot_each_file_once_w :
    ((file_organizer "/d" false (some (some (Json.obj [])))
        [⟨"a.txt", EntryKind.file⟩]).1.takeWhile
          (fun ev => !Event.isSnapshotEv ev)).countP Event.isMove = 0 ∧
    ((file_organizer "/d" false (some (some (Json.obj [])))
        [⟨"a.txt", EntryKind.file⟩]).1.filterMap Event.moveSrc).Nodup :=
  C8_moves_after_snapshot_each_file_once "/d" false (some (some (Json.obj [])))
    [⟨"a.txt", EntryKind.file⟩] (by decide)

/-- C9: when no top-level entry is a regular file (every previously relocated
file now sits inside a category subfolder), a run performs no move and emits
no classification report: only the one-level snapshot is scanned, so nothing
inside a subdirectory is classified or moved again. -/
theorem C9_second_run_noop (d : String) (dry : Bool) (config : ConfigSource)
    (entries : List Entry) (h : entries.all (fun e => !e.kind.is_file) = true) :
    (file_organizer d dry config entries).1.countP Event.isMove = 0 ∧
    (file_organizer d dry config entries).1.countP Event.isClassificationReport = 0 := by
  match config with
  | none => exact ⟨rfl, rfl⟩
  | some none => exact ⟨rfl, rfl⟩
  | some (some j) =>
    have hfil : entries.filter (fun e => e.kind.is_file) = [] := by
      rw [List.filter_eq_nil_iff]
      intro a ha
      have h2 := List.all_eq_true.mp h a ha
      simp only [Bool.not_eq_true'] at h2
      simp [h2]
    have hrf : runFiles d dry j (snapshotOf dry entries) = ([], none) := by
      rw [runFiles_filter, snapshot_filter, hfil]
      rfl
    cases dry
    case false =>
      rw [file_organizer_ok_real, hrf]
      exact ⟨rfl, rfl⟩
    case true =>
      rw [file_organizer_ok_dry, hrf]
      exact ⟨rfl, rfl⟩

/-- Witness for C9 at a concrete input: an already-organized directory whose
only top-level entry is the `Documents` subfolder. -/
theorem C9_second_run_noop_w :
    (file_organizer "/d" false
        (some (some (Json.obj [("Documents", Json.arr [Json.str ".pdf"])])))
        [⟨"Documents", EntryKind.dir⟩]).1.countP Event.isMove = 0 ∧
    (file_organizer "/d" false
        (some (some (Json.obj [("Documents", Json.arr [Json.str ".pdf"])])))
        [⟨"Documents", EntryKind.dir⟩]).1.countP Event.isClassificationReport = 0 :=
  C9_second_run_noop "/d" false
    (some (some (Json.obj [("Documents", Json.arr [Json.str ".pdf"])])))
    [⟨"Documents", EntryKind.dir⟩] (by decide)

/-- C10: `define_options`'s pre-flight validation checks only
`path.exists()`: it succeeds for any existing path — including a regular
file rather than a directory — and raises `SystemExit` with code 1 exactly
when the path does not exist. -/
theorem C10_exists_is_the_only_check :
    (∀ st, path_exists st = true → define_options st = Except.ok st) ∧
    (∀ st, path_exists st = false → define_options st = Except.error 1) ∧
    define_options PathStatus.isFile = Except.ok PathStatus.isFile := by
  refine ⟨?_, ?_, rfl⟩
  · intro st hst
    simp [define_options, hst]
  · intro st hst
    simp [define_options, hst]

/-- Witness for C10 at concrete inputs: an existing file passes, an absent
path exits with code 1. -/
theorem C10_exists_is_the_only_check_w :
    define_options PathStatus.isFile = Except.ok PathStatus.isFile ∧
    define_options PathStatus.absent = Except.error 1 :=
  ⟨C10_exists_is_the_only_check.1 PathStatus.isFile rfl,
   C10_exists_is_the_only_check.2.1 PathStatus.absent rfl⟩

end FileOrganizer
